import Mathlib

/-!
Verification development for the PVgis irradiance web application.

The TypeScript sources are shallowly embedded: pure functions become Lean
functions, JavaScript machine numbers that the claims inspect are modelled
as rationals (finite by construction, so `Number.isFinite` checks become
trivially true exactly where the source intends them to), and code that can
throw returns `Except`.  Calendar arithmetic models the ECMAScript
`Date.UTC` / `toISOString` semantics (proleptic Gregorian calendar, days
relative to the Unix epoch).
-/

namespace PVgis

/-! ## Character and string helpers (models of the JS string primitives) -/

/-- Model of JavaScript `String.prototype.trim` on character lists
(ASCII whitespace, which is all the sources ever meet). -/
def trimChars (l : List Char) : List Char :=
  ((l.dropWhile Char.isWhitespace).reverse.dropWhile Char.isWhitespace).reverse

/-- Model of JavaScript `String.prototype.trim`. -/
def jsTrim (s : String) : String := String.mk (trimChars s.data)

/-- Decimal digit character for a value below ten. -/
def digitChar (n : Nat) : Char :=
  match n with
  | 0 => '0' | 1 => '1' | 2 => '2' | 3 => '3' | 4 => '4'
  | 5 => '5' | 6 => '6' | 7 => '7' | 8 => '8' | _ => '9'

/-- Numeric value of a decimal digit character. -/
def digitVal (c : Char) : Nat := c.toNat - 48

/-- Two-digit zero-padded decimal rendering (fields are below 100 wherever
the sources pad to width two). -/
def pad2 (n : Nat) : String := String.mk [digitChar (n / 10 % 10), digitChar (n % 10)]

/-- Three-digit zero-padded decimal rendering (milliseconds field). -/
def pad3 (n : Nat) : String :=
  String.mk [digitChar (n / 100 % 10), digitChar (n / 10 % 10), digitChar (n % 10)]

/-- Four-digit zero-padded decimal rendering (ISO year field). -/
def pad4 (n : Nat) : String :=
  String.mk [digitChar (n / 1000 % 10), digitChar (n / 100 % 10),
    digitChar (n / 10 % 10), digitChar (n % 10)]

/-- Six-digit zero-padded decimal rendering (ISO expanded year field). -/
def pad6 (n : Nat) : String :=
  String.mk [digitChar (n / 100000 % 10), digitChar (n / 10000 % 10),
    digitChar (n / 1000 % 10), digitChar (n / 100 % 10),
    digitChar (n / 10 % 10), digitChar (n % 10)]

/-- Numeric value of two decimal digit characters. -/
def ofDigits2 (a b : Char) : Int := ((10 * digitVal a + digitVal b : Nat) : Int)

/-- Numeric value of four decimal digit characters. -/
def ofDigits4 (a b c d : Char) : Int :=
  ((1000 * digitVal a + 100 * digitVal b + 10 * digitVal c + digitVal d : Nat) : Int)

/-! ## Proleptic Gregorian calendar arithmetic

Models the ECMAScript `MakeDay` / `MakeTime` / `toISOString` calendar, i.e.
civil dates against days relative to 1970-01-01.  Divisions are Euclidean
(`Int./`), which agrees with mathematical floor division for the positive
divisors used here. -/

/-- Days since the Unix epoch of the civil date `(y, m, d)`, `m ∈ [1,12]`. -/
def daysFromCivil (y m d : Int) : Int :=
  let y1 := if m ≤ 2 then y - 1 else y
  let era := y1 / 400
  let yoe := y1 - era * 400
  let mp := if 2 < m then m - 3 else m + 9
  let doy := (153 * mp + 2) / 5 + d - 1
  let doe := yoe * 365 + yoe / 4 - yoe / 100 + doy
  era * 146097 + doe - 719468

/-- Civil date `(y, m, d)` of a day count relative to the Unix epoch. -/
def civilFromDays (z0 : Int) : Int × Int × Int :=
  let z := z0 + 719468
  let era := z / 146097
  let doe := z - era * 146097
  let yoe := (doe - doe / 1460 + doe / 36524 - doe / 146096) / 365
  let y := yoe + era * 400
  let doy := doe - (365 * yoe + yoe / 4 - yoe / 100)
  let mp := (5 * doy + 2) / 153
  let d := doy - (153 * mp + 2) / 5 + 1
  let m := if mp < 10 then mp + 3 else mp - 9
  (if m ≤ 2 then y + 1 else y, m, d)

/-- Model of `Date.prototype.toISOString` on an epoch-millisecond instant:
`YYYY-MM-DDTHH:mm:ss.sssZ`, with the expanded `±YYYYYY` year form outside
`[0, 9999]`. -/
def isoUtcString (ms : Int) : String :=
  let day := ms / 86400000
  let rem := (ms % 86400000).toNat
  let ymd := civilFromDays day
  let y := ymd.1
  let mo := ymd.2.1
  let d := ymd.2.2
  let hh := rem / 3600000
  let mi := rem / 60000 % 60
  let ss := rem / 1000 % 60
  let msf := rem % 1000
  let yearStr :=
    if 0 ≤ y ∧ y ≤ 9999 then pad4 y.toNat
    else if y < 0 then "-" ++ pad6 (-y).toNat
    else "+" ++ pad6 y.toNat
  yearStr ++ "-" ++ pad2 mo.toNat ++ "-" ++ pad2 d.toNat ++ "T" ++
    pad2 hh ++ ":" ++ pad2 mi ++ ":" ++ pad2 ss ++ "." ++ pad3 msf ++ "Z"

/-- ECMAScript two-digit-year rule of the `Date.UTC` constructor:
years 0 to 99 denote 1900 to 1999. -/
def jsTwoDigitYear (y : Int) : Int := if 0 ≤ y ∧ y ≤ 99 then y + 1900 else y

/-- Model of `Date.UTC(year, monthIndex, day, h, mi, 0)` in epoch
milliseconds: two-digit-year mapping and arbitrary field rollover, exactly
as ECMAScript `MakeDay`/`MakeTime` prescribe. -/
def jsDateUTCms (year monthIndex day h mi : Int) : Int :=
  let y := jsTwoDigitYear year
  let ym := y + monthIndex / 12
  let mn := monthIndex % 12
  ((daysFromCivil ym (mn + 1) 1 + (day - 1)) * 1440 + h * 60 + mi) * 60000

/-! ## Time codec, provider-A style (src/lib/time.ts, `parsePvgisTimeToIsoUtc`) -/

/-- Field extraction of the source's regex
`^(\d{4})(\d{2})(\d{2}):(\d{2})(\d{2})$`: thirteen characters, a colon at
index 8, digits everywhere else, captured as year, month, day, hour,
minute. -/
def pvgisTimeFields (s : String) : Option (Int × Int × Int × Int × Int) :=
  match s.data with
  | [y1, y2, y3, y4, m1, m2, d1, d2, c, h1, h2, n1, n2] =>
    if c = ':' ∧ ([y1, y2, y3, y4, m1, m2, d1, d2, h1, h2, n1, n2].all Char.isDigit) then
      some (ofDigits4 y1 y2 y3 y4, ofDigits2 m1 m2, ofDigits2 d1 d2,
        ofDigits2 h1 h2, ofDigits2 n1 n2)
    else none
  | _ => none

/-- Spec-side predicate, following the spec's words: the string matches the
fixed-width pattern `YYYYMMDD:HHMM` exactly (eight digits, a colon, four
digits — nothing before or after). -/
def matchesFixedWidth (s : String) : Bool :=
  match s.data with
  | [y1, y2, y3, y4, m1, m2, d1, d2, c, h1, h2, n1, n2] =>
    decide (c = ':') && ([y1, y2, y3, y4, m1, m2, d1, d2, h1, h2, n1, n2].all Char.isDigit)
  | _ => false

/-- Embedding of `parsePvgisTimeToIsoUtc` (src/lib/time.ts): trim, match the
fixed-width regex, feed the fields to `Date.UTC`, serialize with
`toISOString`; otherwise throw the time-format error. -/
def parsePvgisTimeToIsoUtc (value : String) : Except String String :=
  match pvgisTimeFields (jsTrim value) with
  | some (y, mo, d, hh, mi) => .ok (isoUtcString (jsDateUTCms y (mo - 1) d hh mi))
  | none => .error ("Unsupported PVGIS time format: " ++ value)

theorem pvgisTimeFields_isSome (s : String) :
    (pvgisTimeFields s).isSome = matchesFixedWidth s := by
  unfold pvgisTimeFields matchesFixedWidth
  split
  case h_1 y1 y2 y3 y4 m1 m2 d1 d2 c h1 h2 n1 n2 heq =>
    by_cases h : c = ':' ∧ ([y1, y2, y3, y4, m1, m2, d1, d2, h1, h2, n1, n2].all Char.isDigit)
    · simp [h, h.1, h.2]
    · rw [if_neg h]
      rcases Decidable.not_and_iff_or_not.mp h with h1 | h2
      · simp [h1]
      · simp [Option.isSome, h2]
  case h_2 => simp

/-- C4 counterexample: the input `" 20200101:0000"` (leading space) does not
match the fixed-width pattern `YYYYMMDD:HHMM` exactly, yet
`parsePvgisTimeToIsoUtc` succeeds on it (the source trims the value before
matching), refuting the claim that every string not matching the pattern
exactly fails with `TimeFormatError`. -/
theorem C4_counterexample :
    matchesFixedWidth " 20200101:0000" = false
    ∧ parsePvgisTimeToIsoUtc " 20200101:0000" = .ok "2020-01-01T00:00:00.000Z" := by
  constructor
  · rfl
  · rfl

/-- C4 (amended): `parsePvgisTimeToIsoUtc` succeeds exactly when the
*trimmed* input matches the fixed-width pattern `YYYYMMDD:HHMM`; on success
it returns the UTC instant that `Date.UTC` assigns to the five fields
(two-digit-year mapping and field rollover included) serialized as
ISO-8601, and on any other input it fails with the time-format error. -/
theorem C4_parsePvgisTime_trimmed_pattern (s : String) :
    ((parsePvgisTimeToIsoUtc s).isOk = matchesFixedWidth (jsTrim s))
    ∧ (matchesFixedWidth (jsTrim s) = false →
        parsePvgisTimeToIsoUtc s = .error ("Unsupported PVGIS time format: " ++ s))
    ∧ (∀ y mo d hh mi, pvgisTimeFields (jsTrim s) = some (y, mo, d, hh, mi) →
        parsePvgisTimeToIsoUtc s = .ok (isoUtcString (jsDateUTCms y (mo - 1) d hh mi))) := by
  refine ⟨?_, ?_, ?_⟩
  · rw [← pvgisTimeFields_isSome]
    unfold parsePvgisTimeToIsoUtc
    cases h : pvgisTimeFields (jsTrim s) with
    | none => rfl
    | some v => obtain ⟨y, mo, d, hh, mi⟩ := v; rfl
  · intro h
    rw [← pvgisTimeFields_isSome] at h
    unfold parsePvgisTimeToIsoUtc
    cases h2 : pvgisTimeFields (jsTrim s) with
    | none => rfl
    | some v => rw [h2] at h; simp at h
  · intro y mo d hh mi h
    unfold parsePvgisTimeToIsoUtc
    rw [h]

/-- Witness for C4: the amended theorem applied at concrete inputs. -/
theorem C4_parsePvgisTime_trimmed_pattern_witness :
    parsePvgisTimeToIsoUtc "20200615:1330" = .ok "2020-06-15T13:30:00.000Z"
    ∧ parsePvgisTimeToIsoUtc "x" = .error ("Unsupported PVGIS time format: " ++ "x") := by
  constructor
  · have h := (C4_parsePvgisTime_trimmed_pattern "20200615:1330").2.2 2020 6 15 13 30 (by rfl)
    rw [h]
    rfl
  · exact (C4_parsePvgisTime_trimmed_pattern "x").2.1 (by rfl)

/-! ## Fingerprint cache (src/lib/cache.ts) -/

/-- A cache entry, as in the source: expiry instant plus stored value. -/
structure CacheEntry (α : Type) where
  expiresAt : Int
  value : α

/-- The module-level `Map` store, modelled as a key-indexed partial map. -/
def CacheStore (α : Type) := String → Option (CacheEntry α)

/-- `store.delete(key)`. -/
def storeDelete {α : Type} (st : CacheStore α) (key : String) : CacheStore α :=
  fun k => if k = key then none else st k

/-- Embedding of `cacheGet`: `Date.now()` is passed explicitly as `now`; the
result is the read value together with the store after the lazy eviction
(the source mutates the module-level map in place). -/
def cacheGet {α : Type} (now : Int) (st : CacheStore α) (key : String) :
    Option α × CacheStore α :=
  match st key with
  | none => (none, st)
  | some entry =>
    if entry.expiresAt < now then (none, storeDelete st key)
    else (some entry.value, st)

/-- Embedding of `cacheSet`: stores the value with `expiresAt = now + ttlMs`. -/
def cacheSet {α : Type} (now : Int) (st : CacheStore α) (key : String) (value : α)
    (ttlMs : Int) : CacheStore α :=
  fun k => if k = key then some ⟨now + ttlMs, value⟩ else st k

/-- C6: after `cacheSet`, a `cacheGet` strictly before the entry's
`expiresAt` instant returns the stored value; a `cacheGet` strictly after
`expiresAt` returns `none` and removes the stale entry from the store on
that same read; and `cacheGet` never evicts an unexpired entry (any key
whose entry has not expired keeps exactly its entry across any read). -/
theorem C6_cache_lazy_expiry {α : Type} (key : String) (value : α)
    (ttlMs now₁ now₂ : Int) (st : CacheStore α) :
    (now₂ < now₁ + ttlMs →
      (cacheGet now₂ (cacheSet now₁ st key value ttlMs) key).1 = some value)
    ∧ (now₁ + ttlMs < now₂ →
      (cacheGet now₂ (cacheSet now₁ st key value ttlMs) key).1 = none
      ∧ (cacheGet now₂ (cacheSet now₁ st key value ttlMs) key).2 key = none)
    ∧ (∀ (st' : CacheStore α) (k k' : String) (e : CacheEntry α), st' k' = some e →
      ¬ e.expiresAt < now₂ → (cacheGet now₂ st' k).2 k' = some e) := by
  refine ⟨?_, ?_, ?_⟩
  · intro h
    have hlt : ¬ (now₁ + ttlMs < now₂) := by omega
    simp [cacheGet, cacheSet, hlt]
  · intro h
    have hlt : now₁ + ttlMs < now₂ := h
    simp [cacheGet, cacheSet, storeDelete, hlt]
  · intro st' k k' e he hlive
    unfold cacheGet
    cases hk : st' k with
    | none => exact he
    | some entry =>
      by_cases hexp : entry.expiresAt < now₂
      · by_cases hkk : k' = k
        · subst hkk
          rw [hk] at he
          injection he with h2
          rw [h2] at hexp
          exact absurd hexp hlive
        · simp [hexp, storeDelete, hkk, he]
      · simp [hexp, he]

/-- Witness for C6: the cache theorem applied at a concrete key, value,
TTL and pair of read instants. -/
theorem C6_cache_lazy_expiry_witness :
    (cacheGet 500 (cacheSet 0 (fun _ => none) "k" (42 : ℕ) 1000) "k").1 = some 42
    ∧ (cacheGet 2000 (cacheSet 0 (fun _ => none) "k" (42 : ℕ) 1000) "k").1 = none := by
  refine ⟨(C6_cache_lazy_expiry "k" 42 1000 0 500 (fun _ => none)).1 (by norm_num),
    ((C6_cache_lazy_expiry "k" 42 1000 0 2000 (fun _ => none)).2.1 (by norm_num)).1⟩

/-! ## Series route error handling (src/app/api/irradiance/series/route.ts)

The catch branch of the `POST` handler mines the error message with
`/between\s+(\d{4})\s+and\s+(\d{4})/i` and, on a match, returns the two
years as structured fields next to the message. -/

/-- Case-insensitive (ASCII) match of a lowercase literal against the head
of the input; returns the remaining input on success. -/
def matchLitCI : List Char → List Char → Option (List Char)
  | [], l => some l
  | _ :: _, [] => none
  | p :: ps, c :: cs => if c.toLower = p then matchLitCI ps cs else none

/-- `\s+`: at least one whitespace character, consumed greedily (the
following pattern pieces never start with whitespace, so greed is exact). -/
def matchWs1 (l : List Char) : Option (List Char) :=
  match l with
  | c :: cs => if c.isWhitespace then some (cs.dropWhile Char.isWhitespace) else none
  | [] => none

/-- `(\d{4})`: exactly four decimal digits, captured as their value. -/
def matchDigits4 : List Char → Option (Nat × List Char)
  | a :: b :: c :: d :: rest =>
    if ([a, b, c, d].all Char.isDigit) then
      some (1000 * digitVal a + 100 * digitVal b + 10 * digitVal c + digitVal d, rest)
    else none
  | _ => none

/-- Attempt `between\s+(\d{4})\s+and\s+(\d{4})` at the head of the input. -/
def yearRangeAt (l : List Char) : Option (Nat × Nat) :=
  (matchLitCI "between".data l).bind fun l1 =>
  (matchWs1 l1).bind fun l2 =>
  (matchDigits4 l2).bind fun p1 =>
  (matchWs1 p1.2).bind fun l3 =>
  (matchLitCI "and".data l3).bind fun l4 =>
  (matchWs1 l4).bind fun l5 =>
  (matchDigits4 l5).bind fun p2 =>
  some (p1.1, p2.1)

/-- Leftmost match search, as `RegExp.prototype.exec` performs. -/
def findYearRange : List Char → Option (Nat × Nat)
  | [] => none
  | c :: cs =>
    match yearRangeAt (c :: cs) with
    | some r => some r
    | none => findYearRange cs

/-- The JSON body the series route returns from its catch branch. -/
inductive SeriesErrorBody where
  | plain (error : String)
  | withYears (error : String) (yearMin yearMax : Nat)
deriving DecidableEq

/-- Embedding of the catch branch of the series route `POST` handler.  The
`Number.isFinite` guards always pass for a four-digit literal, so they are
not a failure path. -/
def seriesRouteErrorBody (message : String) : SeriesErrorBody :=
  match findYearRange message.data with
  | some (y1, y2) => .withYears message y1 y2
  | none => .plain message

theorem digit_toNat_bounds {c : Char} (h : c.isDigit) :
    48 ≤ c.toNat ∧ c.toNat ≤ 57 := by
  simp only [Char.isDigit, Bool.and_eq_true, decide_eq_true_eq, ge_iff_le] at h
  obtain ⟨h1, h2⟩ := h
  have g1 : 48 ≤ c.val.toNat := UInt32.le_toNat_of_le (by norm_num) h1
  have g2 : c.val.toNat ≤ 57 := UInt32.toNat_le_of_le (by norm_num) h2
  exact ⟨g1, g2⟩

theorem digitVal_le_9 {c : Char} (h : c.isDigit) : digitVal c ≤ 9 := by
  have := digit_toNat_bounds h
  unfold digitVal
  omega

theorem matchDigits4_le {l rest : List Char} {n : Nat}
    (h : matchDigits4 l = some (n, rest)) : n ≤ 9999 := by
  unfold matchDigits4 at h
  split at h
  · split at h
    · next hd =>
      simp only [List.all_cons, List.all_nil, Bool.and_true, Bool.and_eq_true] at hd
      injection h with h1
      obtain ⟨ha, hb, hc, hdd⟩ := hd
      have := digitVal_le_9 ha
      have := digitVal_le_9 hb
      have := digitVal_le_9 hc
      have := digitVal_le_9 hdd
      have : n = 1000 * digitVal _ + 100 * digitVal _ + 10 * digitVal _ + digitVal _ :=
        congrArg Prod.fst h1.symm
      omega
    · exact Option.noConfusion h
  · exact Option.noConfusion h

theorem yearRangeAt_le {l : List Char} {y1 y2 : Nat}
    (h : yearRangeAt l = some (y1, y2)) : y1 ≤ 9999 ∧ y2 ≤ 9999 := by
  unfold yearRangeAt at h
  simp only [Option.bind_eq_some] at h
  obtain ⟨l1, _, l2, _, p1, h3, l3, _, l4, _, l5, _, p2, h7, h8⟩ := h
  injection h8 with h8
  have e1 : p1.1 = y1 := congrArg Prod.fst h8
  have e2 : p2.1 = y2 := congrArg Prod.snd h8
  constructor
  · rw [← e1]; exact matchDigits4_le ((Prod.mk.eta (p := p1)) ▸ h3)
  · rw [← e2]; exact matchDigits4_le ((Prod.mk.eta (p := p2)) ▸ h7)

theorem findYearRange_le {l : List Char} {y1 y2 : Nat}
    (h : findYearRange l = some (y1, y2)) : y1 ≤ 9999 ∧ y2 ≤ 9999 := by
  induction l with
  | nil => exact Option.noConfusion h
  | cons c cs ih =>
    unfold findYearRange at h
    cases hAt : yearRangeAt (c :: cs) with
    | some r =>
      rw [hAt] at h
      injection h with h1
      subst h1
      exact yearRangeAt_le hAt
    | none =>
      rw [hAt] at h
      exact ih h

/-- C3 counterexample: the message `"Error: between 2023 and 2005"` has the
textual form `between YYYY and YYYY`, and the route's structured response
carries `yearMin = 2023`, `yearMax = 2005`, violating `yearMin ≤ yearMax`
(the route never checks the ordering of the two extracted years). -/
theorem C3_counterexample :
    findYearRange "Error: between 2023 and 2005".data = some (2023, 2005)
    ∧ seriesRouteErrorBody "Error: between 2023 and 2005" =
        .withYears "Error: between 2023 and 2005" 2023 2005
    ∧ ¬ (2023 ≤ 2005) := by
  refine ⟨by rfl, by rfl, by norm_num⟩

/-- C3 (amended): when the error message contains `between YYYY and YYYY`,
the route's error response carries structured numeric fields `yearMin` and
`yearMax` — the first and second four-digit years of the leftmost match, in
order of appearance, both finite (at most 9999) — alongside the
human-readable message; `yearMin ≤ yearMax` holds exactly when the message
lists the smaller year first.  Without a match the response is the bare
message. -/
theorem C3_yearRange_structured (message : String) :
    (∀ y1 y2, findYearRange message.data = some (y1, y2) →
      seriesRouteErrorBody message = .withYears message y1 y2 ∧ y1 ≤ 9999 ∧ y2 ≤ 9999)
    ∧ (findYearRange message.data = none →
      seriesRouteErrorBody message = .plain message) := by
  constructor
  · intro y1 y2 h
    refine ⟨?_, findYearRange_le h⟩
    unfold seriesRouteErrorBody
    rw [h]
  · intro h
    unfold seriesRouteErrorBody
    rw [h]

/-- Witness for C3: the amended theorem applied to a well-ordered upstream
message and to a message with no year range. -/
theorem C3_yearRange_structured_witness :
    seriesRouteErrorBody "years must be between 2005 and 2023" =
      .withYears "years must be between 2005 and 2023" 2005 2023
    ∧ seriesRouteErrorBody "boom" = .plain "boom" := by
  refine ⟨((C3_yearRange_structured "years must be between 2005 and 2023").1
    2005 2023 (by rfl)).1, (C3_yearRange_structured "boom").2 (by rfl)⟩

/-! ## CAMS CSV parser (src/lib/cams.ts, `parseCamsCsv`)

String primitives are implemented over character lists so that concrete
instances evaluate inside the kernel. -/

/-- `String.prototype.split` with a one-character separator. -/
def splitOnChar (sep : Char) : List Char → List (List Char)
  | [] => [[]]
  | c :: cs =>
    if c = sep then [] :: splitOnChar sep cs
    else
      match splitOnChar sep cs with
      | h :: t => (c :: h) :: t
      | [] => [[c]]

/-- Does the line start with a hash? (`line.startsWith("#")`). -/
def startsWithHash (l : String) : Bool :=
  match l.data with
  | '#' :: _ => true
  | _ => false

/-- `csv.split(/\r?\n/)`: split on newlines, absorbing one carriage return
before each split point. -/
def splitLinesJs (s : String) : List String :=
  (splitOnChar '\n' s.data).map (fun seg =>
    if seg.getLast? = some '\r' then String.mk seg.dropLast else String.mk seg)

/-- The non-blank lines the parser iterates over
(`.filter((l) => l.trim().length > 0)`). -/
def camsLines (csv : String) : List String :=
  (splitLinesJs csv).filter (fun l => !(trimChars l.data).isEmpty)

/-- `line.replace(/^#\s*/, "")`: strip one leading hash together with the
whitespace run following it. -/
def stripHash (l : String) : String :=
  match l.data with
  | '#' :: rest => String.mk (rest.dropWhile Char.isWhitespace)
  | _ => l

/-- The header marker test `/^Observation period\s*;/.test(content)`:
the literal, then optional whitespace, then a semicolon. -/
def isMarkerContent (content : String) : Bool :=
  (List.isPrefixOf "Observation period".data content.data) &&
    (match (content.data.drop 18).dropWhile Char.isWhitespace with
     | ';' :: _ => true
     | _ => false)

/-- Spec-side predicate, following the claim's words: the comment-stripped
content starts with the literal marker `"Observation period;"`. -/
def startsWithLiteralMarker (content : String) : Bool :=
  List.isPrefixOf "Observation period;".data content.data

/-- JS object assignment `obj[k] = v`: overwrite an existing key in place,
otherwise append. -/
def metaInsert (m : List (String × String)) (k v : String) : List (String × String) :=
  if m.any (fun p => p.1 = k) then m.map (fun p => if p.1 = k then (k, v) else p)
  else m ++ [(k, v)]

/-- Metadata extraction `/^([^:]+):\s*(.*)$/` with both sides trimmed:
split at the first colon, requiring a nonempty key part. -/
def metaKV (content : String) : Option (String × String) :=
  match splitOnChar ':' content.data with
  | k :: rest0 :: rest =>
    if k.isEmpty then none
    else some (String.mk (trimChars k),
      String.mk (trimChars (List.intercalate [':'] (rest0 :: rest))))
  | _ => none

/-- First pass of `parseCamsCsv`: walk the lines collecting `#`-line
metadata and remembering the index of the last header marker line. -/
def camsScanAux : List String → Nat → List (String × String) → Option Nat →
    List (String × String) × Option Nat
  | [], _, meta, hdr => (meta, hdr)
  | l :: rest, i, meta, hdr =>
    if startsWithHash l then
      camsScanAux rest (i + 1)
        (match metaKV (stripHash l) with
          | some kv => metaInsert meta kv.1 kv.2
          | none => meta)
        (if isMarkerContent (stripHash l) then some i else hdr)
    else camsScanAux rest (i + 1) meta hdr

/-- Metadata map and header line index of the whole input. -/
def camsScan (lines : List String) : List (String × String) × Option Nat :=
  camsScanAux lines 0 [] none

/-- `line.split(";").map((x) => x.trim())`. -/
def splitFields (l : String) : List String :=
  (splitOnChar ';' l.data).map (fun cs => String.mk (trimChars cs))

/-- The record object built from the header names and a row's fields. -/
def rowObj (headers parts : List String) : List (String × String) :=
  (headers.zip parts).foldl (fun acc p => metaInsert acc p.1 p.2) []

/-- Second pass of `parseCamsCsv`: every non-comment line after the header
whose field count equals the header's becomes a record; any other line is
skipped. -/
def camsRowsAux (headers : List String) : List String → List (List (String × String))
  | [] => []
  | l :: rest =>
    if startsWithHash l then camsRowsAux headers rest
    else
      if (splitFields l).length = headers.length then
        rowObj headers (splitFields l) :: camsRowsAux headers rest
      else camsRowsAux headers rest

/-- Embedding of `parseCamsCsv`: data records plus metadata map, or the
missing-header error (`CsvFormatError`). -/
def parseCamsCsv (csv : String) :
    Except String (List (List (String × String)) × List (String × String)) :=
  match (camsScan (camsLines csv)).2 with
  | none => .error "CAMS CSV missing header line"
  | some hi =>
    .ok (camsRowsAux (splitFields (stripHash ((camsLines csv).getD hi "")))
          ((camsLines csv).drop (hi + 1)),
        (camsScan (camsLines csv)).1)

/-- The keep test of the row loop as a Boolean: not a comment line, and the
field count matches the header's. -/
def keepsRow (headers : List String) (l : String) : Bool :=
  (!startsWithHash l) && ((splitFields l).length == headers.length)

theorem camsRowsAux_eq_filter (headers : List String) (ls : List String) :
    camsRowsAux headers ls =
      (ls.filter (keepsRow headers)).map (fun l => rowObj headers (splitFields l)) := by
  induction ls with
  | nil => rfl
  | cons l rest ih =>
    unfold camsRowsAux
    by_cases hc : startsWithHash l
    · have hk : keepsRow headers l = false := by simp [keepsRow, hc]
      simp [hc, List.filter_cons, hk, ih]
    · by_cases hl : (splitFields l).length = headers.length
      · have hk : keepsRow headers l = true := by simp [keepsRow, hc, hl]
        simp [hc, hl, List.filter_cons, hk, ih]
      · have hk : keepsRow headers l = false := by simp [keepsRow, hc, hl]
        simp [hc, hl, List.filter_cons, hk, ih]

theorem camsScanAux_none_of_noMarker :
    ∀ (ls : List String) (i : Nat) (meta : List (String × String)),
    (∀ l ∈ ls, isMarkerContent (stripHash l) = false) →
    (camsScanAux ls i meta none).2 = none := by
  intro ls
  induction ls with
  | nil => intro i meta _; rfl
  | cons l rest ih =>
    intro i meta h
    have hl := h l (List.mem_cons_self l rest)
    have hrest : ∀ x ∈ rest, isMarkerContent (stripHash x) = false :=
      fun x hx => h x (List.mem_cons_of_mem l hx)
    unfold camsScanAux
    by_cases hc : startsWithHash l
    · simp only [hc, if_true, hl, if_false]
      exact ih (i + 1) _ hrest
    · simp only [hc, if_false]
      exact ih (i + 1) meta hrest

/-- C2 counterexample: the input `"# Observation period ;A\n1"` contains no
line whose comment-stripped content starts with the literal marker
`"Observation period;"` (the space before the semicolon breaks the literal
prefix), yet `parseCamsCsv` succeeds on it, because the source's marker
test `/^Observation period\s*;/` tolerates whitespace before the
semicolon.  This refutes the claim that every such input fails with
`CsvFormatError`. -/
theorem C2_counterexample :
    (∀ l ∈ camsLines "# Observation period ;A\n1",
      startsWithLiteralMarker (stripHash l) = false)
    ∧ (parseCamsCsv "# Observation period ;A\n1").isOk = true := by
  constructor
  · decide
  · decide

/-- C2 (amended): for every input text in which a header marker line is
found, the parser succeeds — every data line after the header whose
semicolon-separated field count differs from the header's is discarded
without raising, and exactly the remaining well-formed lines are returned
as records; and for every input text containing no line whose
comment-stripped content starts with `"Observation period"` followed by
optional whitespace and a semicolon, the parser fails with
`CsvFormatError`. -/
theorem C2_camsCsv_skip_and_header (csv : String) :
    (∀ hi, (camsScan (camsLines csv)).2 = some hi →
      parseCamsCsv csv = .ok
        ((((camsLines csv).drop (hi + 1)).filter
            (keepsRow (splitFields (stripHash ((camsLines csv).getD hi ""))))).map
          (fun l => rowObj (splitFields (stripHash ((camsLines csv).getD hi "")))
            (splitFields l)),
         (camsScan (camsLines csv)).1))
    ∧ ((∀ l ∈ camsLines csv, isMarkerContent (stripHash l) = false) →
      parseCamsCsv csv = .error "CAMS CSV missing header line") := by
  constructor
  · intro hi h
    unfold parseCamsCsv
    simp only [h]
    rw [camsRowsAux_eq_filter]
  · intro h
    have h2 : (camsScan (camsLines csv)).2 = none :=
      camsScanAux_none_of_noMarker (camsLines csv) 0 [] h
    unfold parseCamsCsv
    simp only [h2]

/-- Witness for C2: the amended theorem applied to a concrete well-formed
input (one good row, one malformed trailing row that is skipped) and to a
concrete marker-free input. -/
theorem C2_camsCsv_skip_and_header_witness :
    parseCamsCsv "# Observation period;GHI\n2025-01-01T00:00:00Z/2025-01-01T01:00:00Z;5\n1;2;3" =
      .ok ([[("Observation period", "2025-01-01T00:00:00Z/2025-01-01T01:00:00Z"), ("GHI", "5")]], [])
    ∧ parseCamsCsv "no header here" = .error "CAMS CSV missing header line" := by
  constructor
  · have h := (C2_camsCsv_skip_and_header
      "# Observation period;GHI\n2025-01-01T00:00:00Z/2025-01-01T01:00:00Z;5\n1;2;3").1
      0 (by rfl)
    rw [h]
    rfl
  · exact (C2_camsCsv_skip_and_header "no header here").2 (by decide)

/-! ## Time codec, provider-B style (src/lib/cams.ts,
`toIsoUtcFromObservationPeriod`)

`new Date(string)` is modelled on the ECMAScript Date Time String Format
`YYYY[-MM[-DD]][THH:mm[:ss[.sss]][Z|±HH:MM|±HHMM]]`.  Per ECMA-262 a
date-only string denotes UTC midnight, while a date-time string without a
timezone marker denotes host-local time; the source never parses such a
string (it appends `Z` first), so the model maps the marker-less date-time
form to `none`.  A lowercase `z` designator is accepted, as V8 does. -/

/-- Exactly `n` decimal digits from the head of the input, as their value. -/
def takeDigits : Nat → Nat → List Char → Option (Nat × List Char)
  | 0, acc, l => some (acc, l)
  | n + 1, acc, l =>
    match l with
    | c :: cs => if c.isDigit then takeDigits n (acc * 10 + digitVal c) cs else none
    | [] => none

/-- One to three fractional-second digits, as milliseconds. -/
def takeFrac (l : List Char) : Option (Nat × List Char) :=
  match l.takeWhile Char.isDigit with
  | [a] => some (100 * digitVal a, l.drop 1)
  | [a, b] => some (100 * digitVal a + 10 * digitVal b, l.drop 2)
  | [a, b, c] => some (100 * digitVal a + 10 * digitVal b + digitVal c, l.drop 3)
  | _ => none

/-- Gregorian leap-year rule. -/
def isLeapYear (y : Int) : Bool := (y % 4 = 0 && !(y % 100 = 0)) || y % 400 = 0

/-- Days in a civil month. -/
def daysInMonth (y m : Int) : Int :=
  if m = 2 then (if isLeapYear y then 29 else 28)
  else if m = 4 || m = 6 || m = 9 || m = 11 then 30 else 31

/-- Validate the parsed fields and produce the epoch-millisecond instant,
shifted by the timezone offset. -/
def dateValue (y mo d hh mi ss ms : Nat) (offMin : Int) : Option Int :=
  if 1 ≤ mo ∧ mo ≤ 12 ∧ 1 ≤ d ∧ (d : Int) ≤ daysInMonth (y : Int) (mo : Int)
      ∧ hh ≤ 23 ∧ mi ≤ 59 ∧ ss ≤ 59 then
    some (daysFromCivil (y : Int) (mo : Int) (d : Int) * 86400000 + (hh : Int) * 3600000
      + (mi : Int) * 60000 + (ss : Int) * 1000 + (ms : Int) - offMin * 60000)
  else none

/-- A `±HH:MM` or `±HHMM` offset from four digit characters, validated. -/
def mkOffset (plus : Bool) (h1 h2 m1 m2 : Char) : Option Int :=
  if ([h1, h2, m1, m2].all Char.isDigit) then
    if 10 * digitVal h1 + digitVal h2 ≤ 23 ∧ 10 * digitVal m1 + digitVal m2 ≤ 59 then
      some (if plus then ((10 * digitVal h1 + digitVal h2) * 60
              + (10 * digitVal m1 + digitVal m2) : Int)
            else -((10 * digitVal h1 + digitVal h2) * 60
              + (10 * digitVal m1 + digitVal m2) : Int))
    else none
  else none

/-- The digits of a timezone offset, with or without the colon. -/
def parseOffsetDigits (plus : Bool) : List Char → Option Int
  | [h1, h2, ':', m1, m2] => mkOffset plus h1 h2 m1 m2
  | [h1, h2, m1, m2] => mkOffset plus h1 h2 m1 m2
  | _ => none

/-- The timezone designator ending a date-time string: `Z`, `z`, or a
signed offset; an empty tail (host-local time) is not modelled. -/
def parseTzTail : List Char → Option Int
  | ['Z'] => some 0
  | ['z'] => some 0
  | '+' :: rest => parseOffsetDigits true rest
  | '-' :: rest => parseOffsetDigits false rest
  | _ => none

/-- The `HH:mm[:ss[.sss]]` time part followed by the timezone designator. -/
def parseTimePart (y mo d : Nat) (l : List Char) : Option Int :=
  match takeDigits 2 0 l with
  | none => none
  | some (hh, l1) =>
    match l1 with
    | ':' :: l2 =>
      match takeDigits 2 0 l2 with
      | none => none
      | some (mi, l3) =>
        match l3 with
        | ':' :: l4 =>
          match takeDigits 2 0 l4 with
          | none => none
          | some (ss, l5) =>
            match l5 with
            | '.' :: l6 =>
              match takeFrac l6 with
              | none => none
              | some (ms, l7) =>
                match parseTzTail l7 with
                | none => none
                | some off => dateValue y mo d hh mi ss ms off
            | _ =>
              match parseTzTail l5 with
              | none => none
              | some off => dateValue y mo d hh mi ss 0 off
        | _ =>
          match parseTzTail l3 with
          | none => none
          | some off => dateValue y mo d hh mi 0 0 off
    | _ => none

/-- Model of `new Date(string)` returning epoch milliseconds
(`none` models an invalid date). -/
def jsParseDate (s : String) : Option Int :=
  match takeDigits 4 0 s.data with
  | none => none
  | some (y, l1) =>
    match l1 with
    | [] => dateValue y 1 1 0 0 0 0 0
    | 'T' :: l2 => parseTimePart y 1 1 l2
    | '-' :: l2 =>
      match takeDigits 2 0 l2 with
      | none => none
      | some (mo, l3) =>
        match l3 with
        | [] => dateValue y mo 1 0 0 0 0 0
        | 'T' :: l4 => parseTimePart y mo 1 l4
        | '-' :: l4 =>
          match takeDigits 2 0 l4 with
          | none => none
          | some (d, l5) =>
            match l5 with
            | [] => dateValue y mo d 0 0 0 0 0
            | 'T' :: l6 => parseTimePart y mo d l6
            | _ => none
        | _ => none
    | _ => none

/-- The `/z$/i` test: does the string end in a `z` or `Z`?  Stated on the
reversed character list. -/
def zEnd : List Char → Bool
  | c :: _ => c == 'z' || c == 'Z'
  | [] => false

/-- The `/[+-]\d{2}:?\d{2}$/` test, on the reversed character list. -/
def offsetSuffixRev : List Char → Bool
  | a :: b :: ':' :: c :: d :: s :: _ =>
    a.isDigit && b.isDigit && c.isDigit && d.isDigit && (s == '+' || s == '-')
  | a :: b :: c :: d :: s :: _ =>
    a.isDigit && b.isDigit && c.isDigit && d.isDigit && (s == '+' || s == '-')
  | _ => false

/-- The source's explicit-timezone test on the START portion. -/
def hasTzMarker (start : String) : Bool :=
  zEnd start.data.reverse || offsetSuffixRev start.data.reverse

/-- The character test of `value.split("/")[0]`. -/
def nonSlash (c : Char) : Bool := !(c == '/')

/-- Embedding of `toIsoUtcFromObservationPeriod` (src/lib/cams.ts): take
the portion before the first slash, trim it, require it nonempty, append a
`Z` when no explicit timezone marker is present (UTC assumption), parse,
and serialize the instant canonically with `toISOString`. -/
def toIsoUtcFromObservationPeriod (value : String) : Except String String :=
  let start := String.mk (trimChars (value.data.takeWhile nonSlash))
  if start.data.isEmpty then .error "CAMS CSV missing observation period start"
  else
    match jsParseDate (if hasTzMarker start then start else start ++ "Z") with
    | some ms => .ok (isoUtcString ms)
    | none => .error ("Unsupported CAMS time format: " ++ value)

theorem takeWhile_append_stop (p : Char → Bool) (x : Char) (l1 l2 : List Char)
    (hx : p x = false) : (l1 ++ x :: l2).takeWhile p = l1.takeWhile p := by
  induction l1 with
  | nil => simp [List.takeWhile_cons, hx]
  | cons c cs ih => by_cases hc : p c <;> simp [List.takeWhile_cons, hc, ih]

theorem dropWhile_head?_not {p : Char → Bool} {l : List Char} {c : Char}
    (h : (l.dropWhile p).head? = some c) : p c = false := by
  induction l with
  | nil => simp [List.dropWhile] at h
  | cons a as ih =>
    rw [List.dropWhile_cons] at h
    by_cases ha : p a
    · rw [if_pos ha] at h; exact ih h
    · rw [if_neg ha] at h
      simp only [List.head?_cons, Option.some.injEq] at h
      subst h
      exact Bool.eq_false_iff.mpr ha

theorem trimChars_head_not_ws {l : List Char} {c : Char} {cs : List Char}
    (h : trimChars l = c :: cs) : c.isWhitespace = false := by
  have hB : ((l.dropWhile Char.isWhitespace).reverse.dropWhile Char.isWhitespace).getLast?
      = some c := by
    rw [← List.head?_reverse]
    unfold trimChars at h
    rw [h]
    rfl
  obtain ⟨pre, hpre⟩ := List.dropWhile_suffix
    (l := (l.dropWhile Char.isWhitespace).reverse) (p := Char.isWhitespace)
  have hA : (l.dropWhile Char.isWhitespace).head? = some c := by
    rw [← List.getLast?_reverse, ← hpre, List.getLast?_append, hB]
    rfl
  exact dropWhile_head?_not hA

theorem toOption_match_parse (x : Option Int) (m1 m2 : String) :
    (match x with
     | some ms => (Except.ok (isoUtcString ms) : Except String String)
     | none => Except.error m1).toOption =
    (match x with
     | some ms => (Except.ok (isoUtcString ms) : Except String String)
     | none => Except.error m2).toOption := by
  cases x <;> rfl

theorem trimChars_subset {l : List Char} : ∀ x ∈ trimChars l, x ∈ l := by
  intro x hx
  unfold trimChars at hx
  rw [List.mem_reverse] at hx
  have h1 := (List.dropWhile_suffix (p := Char.isWhitespace)).subset hx
  rw [List.mem_reverse] at h1
  exact (List.dropWhile_suffix (p := Char.isWhitespace)).subset h1

theorem trimChars_cons_append_Z {c : Char} (cs : List Char)
    (hc : c.isWhitespace = false) :
    trimChars ((c :: cs) ++ ['Z']) = (c :: cs) ++ ['Z'] := by
  unfold trimChars
  rw [List.cons_append, List.dropWhile_cons, if_neg (by simp [hc])]
  rw [show (c :: (cs ++ ['Z'])).reverse = 'Z' :: (cs.reverse ++ [c]) by simp]
  rw [List.dropWhile_cons, if_neg (by decide)]
  simp

/-- C5: the CAMS observation-period codec uses only the START portion of
the `START/END` interval (the result, as a timestamp, is independent of
everything after the first slash); a START carrying no explicit timezone
marker is interpreted as UTC (parsing it is the same as parsing it with an
explicit `Z` appended); an empty or missing START fails with
`TimeFormatError`; with-marker STARTs are honored and distinct encodings
of the same instant converge on the one canonical UTC ISO-8601 serialization;
and an unparsable START fails with `TimeFormatError`. -/
theorem C5_obsPeriod_codec :
    (∀ s e1 e2 : String,
      (toIsoUtcFromObservationPeriod (s ++ "/" ++ e1)).toOption
        = (toIsoUtcFromObservationPeriod (s ++ "/" ++ e2)).toOption)
    ∧ (∀ s : String, (∀ c ∈ s.data, nonSlash c = true) →
      hasTzMarker (String.mk (trimChars s.data)) = false →
      (toIsoUtcFromObservationPeriod s).toOption
        = (toIsoUtcFromObservationPeriod (String.mk (trimChars s.data) ++ "Z")).toOption)
    ∧ (toIsoUtcFromObservationPeriod "" =
        .error "CAMS CSV missing observation period start"
      ∧ ∀ e : String, toIsoUtcFromObservationPeriod ("/" ++ e) =
        .error "CAMS CSV missing observation period start")
    ∧ (toIsoUtcFromObservationPeriod "2025-06-01T08:00:00+08:00/x" =
        .ok "2025-06-01T00:00:00.000Z"
      ∧ toIsoUtcFromObservationPeriod "2025-06-01T00:00:00/end" =
        .ok "2025-06-01T00:00:00.000Z"
      ∧ toIsoUtcFromObservationPeriod "2025-06-01T00:00:00Z" =
        .ok "2025-06-01T00:00:00.000Z"
      ∧ toIsoUtcFromObservationPeriod "2025-06-01T08:30:00+0830/x" =
        .ok "2025-06-01T00:00:00.000Z")
    ∧ toIsoUtcFromObservationPeriod "garbage/x" =
        .error "Unsupported CAMS time format: garbage/x" := by
  refine ⟨?_, ?_, ⟨by rfl, ?_⟩, ⟨by rfl, by rfl, by rfl, by rfl⟩, by rfl⟩
  · intro s e1 e2
    simp only [toIsoUtcFromObservationPeriod]
    have h1 : (s ++ "/" ++ e1).data.takeWhile nonSlash = s.data.takeWhile nonSlash := by
      rw [show (s ++ "/" ++ e1).data = s.data ++ '/' :: e1.data by
        simp [String.data_append]]
      exact takeWhile_append_stop nonSlash '/' _ _ (by decide)
    have h2 : (s ++ "/" ++ e2).data.takeWhile nonSlash = s.data.takeWhile nonSlash := by
      rw [show (s ++ "/" ++ e2).data = s.data ++ '/' :: e2.data by
        simp [String.data_append]]
      exact takeWhile_append_stop nonSlash '/' _ _ (by decide)
    rw [h1, h2]
    by_cases he : (String.mk (trimChars (s.data.takeWhile nonSlash))).data.isEmpty
    · simp [he]
    · simp only [he, Bool.false_eq_true, if_false]
      exact toOption_match_parse _ _ _
  · intro s hns hm
    have htw : s.data.takeWhile nonSlash = s.data := List.takeWhile_eq_self_iff.mpr hns
    cases htc : trimChars s.data with
    | nil =>
      have he1 : toIsoUtcFromObservationPeriod s =
          .error "CAMS CSV missing observation period start" := by
        simp only [toIsoUtcFromObservationPeriod]
        rw [htw, htc]
        rfl
      rw [he1]
      rfl
    | cons c cs =>
      have hcws : c.isWhitespace = false := trimChars_head_not_ws htc
      rw [htc] at hm
      have harg : String.mk (c :: cs) ++ "Z" = String.mk (c :: (cs ++ ['Z'])) := rfl
      rw [harg]
      have hlhs : toIsoUtcFromObservationPeriod s =
          match jsParseDate (String.mk (c :: (cs ++ ['Z']))) with
          | some ms => .ok (isoUtcString ms)
          | none => .error ("Unsupported CAMS time format: " ++ s) := by
        simp only [toIsoUtcFromObservationPeriod]
        rw [htw, htc]
        rw [if_neg (by simp : ¬ ((c :: cs).isEmpty = true))]
        rw [if_neg (by simp [hm] : ¬ (hasTzMarker (String.mk (c :: cs)) = true))]
        rw [harg]
      have hrhs : toIsoUtcFromObservationPeriod (String.mk (c :: (cs ++ ['Z']))) =
          match jsParseDate (String.mk (c :: (cs ++ ['Z']))) with
          | some ms => .ok (isoUtcString ms)
          | none => .error ("Unsupported CAMS time format: "
              ++ String.mk (c :: (cs ++ ['Z']))) := by
        simp only [toIsoUtcFromObservationPeriod]
        rw [show (c :: (cs ++ ['Z'])) = (c :: cs) ++ ['Z'] from rfl]
        have htw2 : ((c :: cs) ++ ['Z']).takeWhile nonSlash = (c :: cs) ++ ['Z'] := by
          refine List.takeWhile_eq_self_iff.mpr ?_
          intro a ha
          rcases List.mem_append.mp ha with h | h
          · exact hns a (trimChars_subset a (htc ▸ h))
          · simp only [List.mem_singleton] at h
            subst h
            decide
        rw [htw2, trimChars_cons_append_Z cs hcws]
        have hmark : hasTzMarker (String.mk ((c :: cs) ++ ['Z'])) = true := by
          unfold hasTzMarker zEnd
          rw [show (String.mk ((c :: cs) ++ ['Z'])).data.reverse
            = 'Z' :: (cs.reverse ++ [c]) by simp]
          rfl
        rw [if_neg (by simp : ¬ (((c :: cs) ++ ['Z']).isEmpty = true))]
        rw [if_pos hmark]
      rw [hlhs, hrhs]
      exact toOption_match_parse _ _ _
  · intro e
    simp only [toIsoUtcFromObservationPeriod]
    rw [show ("/" ++ e).data = '/' :: e.data by simp [String.data_append]]
    rfl

/-- Witness for C5: the codec theorem applied at concrete inputs — the
END portion is irrelevant, and a marker-less START parses as if `Z` were
appended. -/
theorem C5_obsPeriod_codec_witness :
    (toIsoUtcFromObservationPeriod ("2025-01-01T00:00:00Z" ++ "/" ++ "A")).toOption
      = (toIsoUtcFromObservationPeriod ("2025-01-01T00:00:00Z" ++ "/" ++ "B")).toOption
    ∧ (toIsoUtcFromObservationPeriod "2025-01-01T00:00:00").toOption
      = (toIsoUtcFromObservationPeriod
          (String.mk (trimChars ("2025-01-01T00:00:00" : String).data) ++ "Z")).toOption := by
  exact ⟨C5_obsPeriod_codec.1 "2025-01-01T00:00:00Z" "A" "B",
    C5_obsPeriod_codec.2.1 "2025-01-01T00:00:00" (by decide) (by rfl)⟩

/-! ## Canonical data model (src/lib/types.ts) -/

/-- A JSON scalar cell of a provider row (`number | string | null`);
numbers are modelled as rationals and are therefore finite by
construction, exactly the values the sources' `Number.isFinite` guards
let through. -/
inductive JsonVal where
  | num (q : ℚ)
  | str (s : String)
  | null
deriving DecidableEq

/-- An opaque JSON document (the providers' `inputs` echo). -/
inductive Json where
  | num (q : ℚ)
  | str (s : String)
  | bool (b : Bool)
  | null
  | arr (xs : List Json)
  | obj (kvs : List (String × Json))

/-- `IrradianceUnit` (src/lib/types.ts): two optional fields. -/
structure IrradianceUnit where
  irradiance : Option String := none
  irradiation : Option String := none
deriving DecidableEq

/-- The CAMS call parameters as embedded into `rawInputs` by the spread
`{ ...params, email: undefined }`; the source's `end` field is named
`endDate` here. -/
structure CamsRawParams where
  start : String
  endDate : String
  email : Option String
  identifier : Option String
  timeStep : Option String
  integrated : Option Bool
deriving DecidableEq

/-- The `rawInputs` provenance payload of a response. -/
inductive RawInputs where
  | pvgisInputs (inputs : Json)
  | camsInputs (params : CamsRawParams) (soda : List (String × String))

/-- `IrradianceMetadata` (src/lib/types.ts). -/
structure IrradianceMetadata where
  source : String
  queryType : String
  lat : ℚ
  lon : ℚ
  timeRef : String
  unit : IrradianceUnit
  provider : Option String := none
  rawInputs : Option RawInputs := none
  cached : Option Bool := none
  requestUrl : Option String := none

/-- `IrradiancePoint` (src/lib/types.ts). -/
structure IrradiancePoint where
  time : String
  ghi : Option ℚ
  dni : Option ℚ
  dhi : Option ℚ
  extras : List (String × JsonVal)

/-- `IrradianceResponse` (src/lib/types.ts). -/
structure IrradianceResponse where
  metadata : IrradianceMetadata
  data : List IrradiancePoint

/-! ## JavaScript `Number(string)` (used by the CAMS adapter's coercions)

Modelled for finite results only: `none` stands for `NaN` and the
infinities, which every call site maps to null or passes the raw string
through.  Decimal literals with optional sign, fraction and exponent, and
unsigned hex/octal/binary literals are covered; an astronomically large
exponent (beyond double range, where JS overflows to `Infinity`) is not
distinguished. -/

/-- Value of a digit run. -/
def digitsVal (l : List Char) : Nat := l.foldl (fun a c => a * 10 + digitVal c) 0

/-- Exponent digits: at least one digit, consuming the whole rest. -/
def parseExpDigits (base : ℚ) (negExp : Bool) (l : List Char) : Option ℚ :=
  if l.isEmpty || !(l.all Char.isDigit) then none
  else some (if negExp then base / 10 ^ digitsVal l else base * 10 ^ digitsVal l)

/-- Optionally signed exponent digits. -/
def parseExpSigned (base : ℚ) : List Char → Option ℚ
  | '+' :: r => parseExpDigits base false r
  | '-' :: r => parseExpDigits base true r
  | r => parseExpDigits base false r

/-- The optional exponent part. -/
def parseExpPart (base : ℚ) : List Char → Option ℚ
  | [] => some base
  | 'e' :: r => parseExpSigned base r
  | 'E' :: r => parseExpSigned base r
  | _ => none

/-- An unsigned decimal literal `digits [. digits] [exp]` or
`. digits [exp]`. -/
def parseUnsignedDec (l : List Char) : Option ℚ :=
  let ip := l.takeWhile Char.isDigit
  match l.drop ip.length with
  | '.' :: r2 =>
    let fp := r2.takeWhile Char.isDigit
    if ip.isEmpty && fp.isEmpty then none
    else parseExpPart ((digitsVal ip : ℚ) + (digitsVal fp : ℚ) / (10 ^ fp.length : ℚ))
      (r2.drop fp.length)
  | r1 =>
    if ip.isEmpty then none
    else parseExpPart (digitsVal ip : ℚ) r1

/-- A decimal literal with optional sign. -/
def parseSignedDecimal : List Char → Option ℚ
  | '+' :: r => parseUnsignedDec r
  | '-' :: r => (parseUnsignedDec r).map (fun q => -q)
  | r => parseUnsignedDec r

/-- Value of a hexadecimal digit, if any. -/
def hexVal (c : Char) : Option Nat :=
  if c.isDigit then some (digitVal c)
  else if 'a' ≤ c ∧ c ≤ 'f' then some (c.toNat - 87)
  else if 'A' ≤ c ∧ c ≤ 'F' then some (c.toNat - 55)
  else none

/-- Digits of radix `b`, consuming the whole rest. -/
def parseRadixDigits (b : Nat) : List Char → Nat → Option Nat
  | [], acc => some acc
  | c :: cs, acc =>
    match hexVal c with
    | some v => if v < b then parseRadixDigits b cs (acc * b + v) else none
    | none => none

/-- An unsigned `0x`/`0o`/`0b` literal. -/
def parseRadix : List Char → Option ℚ
  | '0' :: 'x' :: c :: cs => (parseRadixDigits 16 (c :: cs) 0).map (fun n => (n : ℚ))
  | '0' :: 'X' :: c :: cs => (parseRadixDigits 16 (c :: cs) 0).map (fun n => (n : ℚ))
  | '0' :: 'o' :: c :: cs => (parseRadixDigits 8 (c :: cs) 0).map (fun n => (n : ℚ))
  | '0' :: 'O' :: c :: cs => (parseRadixDigits 8 (c :: cs) 0).map (fun n => (n : ℚ))
  | '0' :: 'b' :: c :: cs => (parseRadixDigits 2 (c :: cs) 0).map (fun n => (n : ℚ))
  | '0' :: 'B' :: c :: cs => (parseRadixDigits 2 (c :: cs) 0).map (fun n => (n : ℚ))
  | _ => none

/-- Model of `Number(string)` restricted to finite results. -/
def jsNumber (s : String) : Option ℚ :=
  match trimChars s.data with
  | [] => some 0
  | l => (parseRadix l).or (parseSignedDecimal l)

/-! ## URL building (`new URL` + `URLSearchParams` serialization) -/

/-- Uppercase hexadecimal digit character. -/
def hexDigitChar (n : Nat) : Char :=
  match n with
  | 0 => '0' | 1 => '1' | 2 => '2' | 3 => '3' | 4 => '4' | 5 => '5' | 6 => '6'
  | 7 => '7' | 8 => '8' | 9 => '9' | 10 => 'A' | 11 => 'B' | 12 => 'C'
  | 13 => 'D' | 14 => 'E' | _ => 'F'

/-- UTF-8 bytes of a character. -/
def utf8Bytes (c : Char) : List Nat :=
  let n := c.toNat
  if n < 128 then [n]
  else if n < 2048 then [192 + n / 64, 128 + n % 64]
  else if n < 65536 then [224 + n / 4096, 128 + n / 64 % 64, 128 + n % 64]
  else [240 + n / 262144, 128 + n / 4096 % 64, 128 + n / 64 % 64, 128 + n % 64]

/-- `application/x-www-form-urlencoded` escaping of one character, as
`URLSearchParams` serialization performs: ASCII alphanumerics and `*-._`
stay, space becomes `+`, anything else is percent-encoded byte-wise. -/
def formEncodeChar (c : Char) : List Char :=
  if c.isAlphanum then [c]
  else if c = '*' ∨ c = '-' ∨ c = '.' ∨ c = '_' then [c]
  else if c = ' ' then ['+']
  else (utf8Bytes c).foldr
    (fun b acc => '%' :: hexDigitChar (b / 16) :: hexDigitChar (b % 16) :: acc) []

/-- Escaping of a whole component. -/
def formEncode (s : String) : String :=
  String.mk (s.data.foldr (fun c acc => formEncodeChar c ++ acc) [])

/-- The serialized `key=value` pairs joined with ampersands. -/
def joinPairs : List (String × String) → List Char
  | [] => []
  | [p] => (formEncode p.1).data ++ '=' :: (formEncode p.2).data
  | p :: q :: qs =>
    (formEncode p.1).data ++ '=' :: ((formEncode p.2).data ++ '&' :: joinPairs (q :: qs))

/-- `url.toString()` for a base URL without a prior query. -/
def urlWithQuery (base : String) (params : List (String × String)) : String :=
  String.mk (base.data ++ '?' :: joinPairs params)

/-! ## PVGIS adapter (src/lib/pvgis.ts)

The builders below are the pure parts of the fetch operations: they take
the string renderings of the coordinates (JavaScript `String(lat)` /
`String(lon)`, abstracted as explicit inputs), the parsed provider rows
(`json.outputs`) and the echoed `json.inputs`, and return the issued
request URL paired with the canonical response.  The `PVGIS_BASE_URL`
environment override is not modelled; the default base is used. -/

/-- Default base URL of the PVGIS API. -/
def PVGIS_BASE_URL : String := "https://re.jrc.ec.europa.eu/api/v5_3"

/-- A provider row: a JSON object of scalar cells. -/
def PvgisRow : Type := List (String × JsonVal)

/-- `numberOrNull` (src/lib/pvgis.ts) applied to an object access `r[key]`
(`none` for an absent key models `undefined`): a finite number or null. -/
def numberOrNull : Option JsonVal → Option ℚ
  | some (.num q) => some q
  | _ => none

/-- The row mapper of `fetchPvgisSeries`: canonical `ghi` is derived as the
sum of the plane-of-array components `Gb(i)`, `Gd(i)`, `Gr(i)` when at
least one is present (absent components count as zero), `null` when all
three are absent; `dni` and `dhi` stay null; every cell except `time` is
preserved under `extras`. -/
def pvgisSeriesPoint (r : PvgisRow) : Except String IrradiancePoint :=
  match List.lookup "time" r with
  | some (.str rawTime) =>
    match parsePvgisTimeToIsoUtc rawTime with
    | .error e => .error e
    | .ok iso =>
      .ok { time := iso
            ghi :=
              if (numberOrNull (List.lookup "Gb(i)" r)).isSome
                  ∨ (numberOrNull (List.lookup "Gd(i)" r)).isSome
                  ∨ (numberOrNull (List.lookup "Gr(i)" r)).isSome then
                some ((numberOrNull (List.lookup "Gb(i)" r)).getD 0
                  + (numberOrNull (List.lookup "Gd(i)" r)).getD 0
                  + (numberOrNull (List.lookup "Gr(i)" r)).getD 0)
              else none
            dni := none
            dhi := none
            extras := r.filter (fun p => !(p.1 == "time")) }
  | _ => .error "PVGIS series missing time"

/-- The `seriescalc` request URL. -/
def pvgisSeriesUrl (latS lonS : String) (startYear endYear : Int) : String :=
  urlWithQuery (PVGIS_BASE_URL ++ "/seriescalc")
    [("lat", latS), ("lon", lonS), ("startyear", toString startYear),
     ("endyear", toString endYear), ("outputformat", "json"), ("browser", "0"),
     ("components", "1")]

/-- The pure part of `fetchPvgisSeries`: issued URL and canonical
response. -/
def fetchPvgisSeries (lat lon : ℚ) (latS lonS : String) (startYear endYear : Int)
    (rows : List PvgisRow) (inputs : Json) :
    Except String (String × IrradianceResponse) :=
  match rows.mapM pvgisSeriesPoint with
  | .error e => .error e
  | .ok data =>
    .ok (pvgisSeriesUrl latS lonS startYear endYear,
      { metadata := {
          source := "pvgis", queryType := "series", lat := lat, lon := lon,
          timeRef := "UTC", unit := { irradiance := some "W/m2" },
          requestUrl := some (pvgisSeriesUrl latS lonS startYear endYear),
          rawInputs := some (.pvgisInputs inputs) },
        data := data })

/-- The row mapper of `fetchPvgisTmy`: canonical `ghi`/`dni`/`dhi` read
directly from `G(h)`, `Gb(n)`, `Gd(h)`. -/
def pvgisTmyPoint (r : PvgisRow) : Except String IrradiancePoint :=
  match List.lookup "time(UTC)" r with
  | some (.str rawTime) =>
    match parsePvgisTimeToIsoUtc rawTime with
    | .error e => .error e
    | .ok iso =>
      .ok { time := iso
            ghi := numberOrNull (List.lookup "G(h)" r)
            dni := numberOrNull (List.lookup "Gb(n)" r)
            dhi := numberOrNull (List.lookup "Gd(h)" r)
            extras := r.filter (fun p => !(p.1 == "time(UTC)") && !(p.1 == "G(h)")
              && !(p.1 == "Gb(n)") && !(p.1 == "Gd(h)")) }
  | _ => .error "PVGIS TMY missing time(UTC)"

/-- The `tmy` request URL. -/
def pvgisTmyUrl (latS lonS : String) : String :=
  urlWithQuery (PVGIS_BASE_URL ++ "/tmy")
    [("lat", latS), ("lon", lonS), ("outputformat", "json")]

/-- The pure part of `fetchPvgisTmy`: issued URL and canonical response. -/
def fetchPvgisTmy (lat lon : ℚ) (latS lonS : String) (rows : List PvgisRow)
    (inputs : Json) : Except String (String × IrradianceResponse) :=
  match rows.mapM pvgisTmyPoint with
  | .error e => .error e
  | .ok data =>
    .ok (pvgisTmyUrl latS lonS,
      { metadata := {
          source := "pvgis", queryType := "tmy", lat := lat, lon := lon,
          timeRef := "UTC", unit := { irradiance := some "W/m2" },
          requestUrl := some (pvgisTmyUrl latS lonS),
          rawInputs := some (.pvgisInputs inputs) },
        data := data })

/-! ## CAMS adapter (src/lib/cams.ts, `fetchCamsSeries`) -/

/-- Default base URL of the SoDa WPS service (`CAMS_SODA_WPS_URL` override
not modelled). -/
def SODA_WPS_BASE_URL : String := "https://api.soda-solardata.com/service/wps"

/-- `FetchCamsSeriesParams` (src/lib/cams.ts); the source's `end` field is
named `endDate` here. -/
structure FetchCamsSeriesParams where
  start : String
  endDate : String
  email : String
  identifier : Option String := none
  timeStep : Option String := none
  integrated : Option Bool := none
deriving DecidableEq

/-- `replaceAll` of one character by a literal. -/
def replaceAllChar (x : Char) (sub : List Char) : List Char → List Char
  | [] => []
  | c :: cs => if c = x then sub ++ replaceAllChar x sub cs
               else c :: replaceAllChar x sub cs

/-- `params.email.trim().replaceAll("@", "%2540")`. -/
def emailEscaped (email : String) : String :=
  String.mk (replaceAllChar '@' "%2540".data (trimChars email.data))

/-- The `DataInputs` parameter value. -/
def camsDataInputs (latS lonS : String) (p : FetchCamsSeriesParams) : String :=
  String.intercalate ";"
    ["latitude=" ++ latS, "longitude=" ++ lonS, "altitude=-999",
     "date_begin=" ++ p.start, "date_end=" ++ p.endDate, "time_ref=UT",
     "time_step=" ++ (p.timeStep.getD "1h"), "email=" ++ emailEscaped p.email,
     "verbose=false", "outputformat=csv",
     "integrated=" ++ (if p.integrated.getD false then "true" else "false")]

/-- The full WPS request URL. -/
def camsRequestUrl (latS lonS : String) (p : FetchCamsSeriesParams) : String :=
  urlWithQuery SODA_WPS_BASE_URL
    [("DataInputs", camsDataInputs latS lonS p), ("Service", "WPS"),
     ("Request", "Execute"),
     ("Identifier", "get_" ++ (p.identifier.getD "cams_radiation")),
     ("version", "1.0.0"), ("RawDataOutput", "irradiation")]

/-- `numberOrNull` of src/lib/cams.ts: an absent or empty field is null,
otherwise `Number(value)` when finite. -/
def numberOrNullStr : Option String → Option ℚ
  | none => none
  | some s => if s.data.isEmpty then none else jsNumber s

/-- The row mapper of `fetchCamsSeries`: the `Observation period` interval
becomes the canonical UTC time, `GHI`/`BNI`/`DHI` become the canonical
fields, every other cell goes to `extras` with numeric-looking strings
coerced to numbers. -/
def camsPoint (r : List (String × String)) : Except String IrradiancePoint :=
  match List.lookup "Observation period" r with
  | none => .error "CAMS CSV missing Observation period column"
  | some rawTime =>
    if rawTime.data.isEmpty then .error "CAMS CSV missing Observation period column"
    else
      match toIsoUtcFromObservationPeriod rawTime with
      | .error e => .error e
      | .ok iso =>
        .ok { time := iso
              ghi := numberOrNullStr (List.lookup "GHI" r)
              dni := numberOrNullStr (List.lookup "BNI" r)
              dhi := numberOrNullStr (List.lookup "DHI" r)
              extras := (r.filter (fun q => !(q.1 == "Observation period")
                  && !(q.1 == "GHI") && !(q.1 == "BNI") && !(q.1 == "DHI"))).map
                (fun q => (q.1, match jsNumber q.2 with
                  | some n => JsonVal.num n
                  | none => JsonVal.str q.2)) }

/-- The pure part of `fetchCamsSeries`: email guard, CSV parse, row
mapping, issued URL and canonical response (unit chosen by the
`integrated` flag, email omitted from `rawInputs`). -/
def fetchCamsSeries (lat lon : ℚ) (latS lonS : String)
    (p : FetchCamsSeriesParams) (csv : String) :
    Except String (String × IrradianceResponse) :=
  if (trimChars p.email.data).isEmpty then
    .error "CAMS requires SoDa email (set CAMS_SODA_EMAIL or pass email)"
  else
    match parseCamsCsv csv with
    | .error e => .error e
    | .ok rm =>
      match rm.1.mapM camsPoint with
      | .error e => .error e
      | .ok data =>
        .ok (camsRequestUrl latS lonS p,
          { metadata := {
              source := "cams", queryType := "series", lat := lat, lon := lon,
              timeRef := "UTC",
              unit := if p.integrated.getD false then { irradiation := some "Wh/m2" }
                      else { irradiance := some "W/m2" },
              provider := some "soda",
              requestUrl := some (camsRequestUrl latS lonS p),
              rawInputs := some (.camsInputs
                { start := p.start, endDate := p.endDate, email := none,
                  identifier := p.identifier, timeStep := p.timeStep,
                  integrated := p.integrated } rm.2) },
            data := data })

/-! ## C1: derived ghi of the multi-year series -/

/-- C1: for every row of a PVGIS multi-year series response that maps to a
point, `dni` and `dhi` are null; when all three plane-of-array components
`Gb(i)`, `Gd(i)`, `Gr(i)` are absent, `ghi` is null (not zero); when at
least one is present (a finite number), `ghi` is the sum of the present
components with absent components counted as zero. -/
theorem C1_pvgisSeries_componentSum (r : PvgisRow) (p : IrradiancePoint)
    (h : pvgisSeriesPoint r = .ok p) :
    p.dni = none ∧ p.dhi = none
    ∧ ((numberOrNull (List.lookup "Gb(i)" r) = none
        ∧ numberOrNull (List.lookup "Gd(i)" r) = none
        ∧ numberOrNull (List.lookup "Gr(i)" r) = none) → p.ghi = none)
    ∧ (((numberOrNull (List.lookup "Gb(i)" r)).isSome
        ∨ (numberOrNull (List.lookup "Gd(i)" r)).isSome
        ∨ (numberOrNull (List.lookup "Gr(i)" r)).isSome) →
      p.ghi = some ((numberOrNull (List.lookup "Gb(i)" r)).getD 0
        + (numberOrNull (List.lookup "Gd(i)" r)).getD 0
        + (numberOrNull (List.lookup "Gr(i)" r)).getD 0)) := by
  unfold pvgisSeriesPoint at h
  split at h
  · split at h
    · exact Except.noConfusion h
    · injection h with h
      subst h
      refine ⟨rfl, rfl, ?_, ?_⟩
      · rintro ⟨h1, h2, h3⟩
        show (if _ then _ else _) = none
        rw [if_neg]
        rw [h1, h2, h3]
        simp
      · intro hor
        show (if _ then _ else _) = some _
        rw [if_pos hor]
  · exact Except.noConfusion h

/-- A concrete series row: `Gb(i)` and `Gr(i)` present, `Gd(i)` absent. -/
def c1RowEx : PvgisRow :=
  [("time", .str "20200101:0011"), ("Gb(i)", .num 5), ("Gr(i)", .num 2)]

/-- The point `fetchPvgisSeries` emits for `c1RowEx` (the component sum is
kept unevaluated; it equals 7). -/
def c1PointEx : IrradiancePoint :=
  { time := "2020-01-01T00:11:00.000Z", ghi := some (5 + 0 + 2), dni := none,
    dhi := none, extras := [("Gb(i)", .num 5), ("Gr(i)", .num 2)] }

/-- Witness for C1: the component-sum theorem applied at a concrete row. -/
theorem C1_pvgisSeries_componentSum_witness :
    pvgisSeriesPoint c1RowEx = .ok c1PointEx
    ∧ c1PointEx.dni = none ∧ c1PointEx.dhi = none ∧ c1PointEx.ghi = some 7 := by
  have hok : pvgisSeriesPoint c1RowEx = .ok c1PointEx := by rfl
  have h := C1_pvgisSeries_componentSum c1RowEx c1PointEx hok
  refine ⟨hok, h.1, h.2.1, ?_⟩
  have h4 := h.2.2.2 (Or.inl (by rfl))
  rw [h4]
  have e1 : numberOrNull (List.lookup "Gb(i)" c1RowEx) = some 5 := rfl
  have e2 : numberOrNull (List.lookup "Gd(i)" c1RowEx) = none := rfl
  have e3 : numberOrNull (List.lookup "Gr(i)" c1RowEx) = some 2 := rfl
  rw [e1, e2, e3]
  norm_num

/-! ## C7: unit exclusivity across the adapters -/

/-- Exactly one of the two unit fields is populated. -/
def exclusiveUnit (u : IrradianceUnit) : Bool :=
  (u.irradiance.isSome && !u.irradiation.isSome)
  || (!u.irradiance.isSome && u.irradiation.isSome)

/-- C7: every response any adapter builds populates exactly one of the two
unit fields: both PVGIS operations yield `{irradiance: "W/m2"}`, a CAMS
fetch yields `{irradiation: "Wh/m2"}` when `integrated` is true and
`{irradiance: "W/m2"}` when `integrated` is false or omitted. -/
theorem C7_unit_exclusive :
    (∀ lat lon latS lonS sy ey rows inputs url resp,
      fetchPvgisSeries lat lon latS lonS sy ey rows inputs = .ok (url, resp) →
      resp.metadata.unit = { irradiance := some "W/m2" }
      ∧ exclusiveUnit resp.metadata.unit = true)
    ∧ (∀ lat lon latS lonS rows inputs url resp,
      fetchPvgisTmy lat lon latS lonS rows inputs = .ok (url, resp) →
      resp.metadata.unit = { irradiance := some "W/m2" }
      ∧ exclusiveUnit resp.metadata.unit = true)
    ∧ (∀ lat lon latS lonS p csv url resp,
      fetchCamsSeries lat lon latS lonS p csv = .ok (url, resp) →
      exclusiveUnit resp.metadata.unit = true
      ∧ (p.integrated = some true →
          resp.metadata.unit = { irradiation := some "Wh/m2" })
      ∧ ((p.integrated = some false ∨ p.integrated = none) →
          resp.metadata.unit = { irradiance := some "W/m2" })) := by
  refine ⟨?_, ?_, ?_⟩
  · intro lat lon latS lonS sy ey rows inputs url resp h
    unfold fetchPvgisSeries at h
    split at h
    · exact Except.noConfusion h
    · injection h with h
      injection h with h1 h2
      subst h2
      exact ⟨rfl, rfl⟩
  · intro lat lon latS lonS rows inputs url resp h
    unfold fetchPvgisTmy at h
    split at h
    · exact Except.noConfusion h
    · injection h with h
      injection h with h1 h2
      subst h2
      exact ⟨rfl, rfl⟩
  · intro lat lon latS lonS p csv url resp h
    unfold fetchCamsSeries at h
    split at h
    · exact Except.noConfusion h
    · split at h
      · exact Except.noConfusion h
      · split at h
        · exact Except.noConfusion h
        · injection h with h
          injection h with h1 h2
          subst h2
          refine ⟨?_, ?_, ?_⟩
          · show exclusiveUnit (if p.integrated.getD false then _ else _) = true
            rcases p.integrated with _ | b
            · rfl
            · cases b <;> rfl
          · intro hi
            show (if p.integrated.getD false then _ else _) = _
            rw [hi]
            rfl
          · intro hi
            show (if p.integrated.getD false then _ else _) = _
            rcases hi with hi | hi <;> rw [hi] <;> rfl

/-! ## C9: requestUrl provenance and credential absence -/

theorem hexDigitChar_ne_at (n : Nat) : ¬ hexDigitChar n = '@' := by
  unfold hexDigitChar
  split <;> decide

theorem percent_fold_no_at (bs : List Nat) :
    '@' ∉ bs.foldr
      (fun b acc => '%' :: hexDigitChar (b / 16) :: hexDigitChar (b % 16) :: acc) [] := by
  induction bs with
  | nil => simp
  | cons b rest ih =>
    simp only [List.foldr_cons, List.mem_cons]
    rintro (h | h | h | h)
    · exact absurd h (by decide)
    · exact hexDigitChar_ne_at _ h.symm
    · exact hexDigitChar_ne_at _ h.symm
    · exact ih h

theorem formEncodeChar_no_at (c : Char) : '@' ∉ formEncodeChar c := by
  unfold formEncodeChar
  split
  · next h =>
    intro hm
    simp only [List.mem_singleton] at hm
    subst hm
    exact absurd h (by decide)
  · split
    · next h =>
      intro hm
      simp only [List.mem_singleton] at hm
      subst hm
      rcases h with h | h | h | h <;> exact absurd h (by decide)
    · split
      · intro hm
        simp only [List.mem_singleton] at hm
        exact absurd hm (by decide)
      · exact percent_fold_no_at _

theorem formEncode_no_at (s : String) : '@' ∉ (formEncode s).data := by
  show '@' ∉ s.data.foldr (fun c acc => formEncodeChar c ++ acc) []
  induction s.data with
  | nil => simp
  | cons c cs ih =>
    simp only [List.foldr_cons, List.mem_append]
    rintro (h | h)
    · exact formEncodeChar_no_at c h
    · exact ih h

theorem joinPairs_no_at (ps : List (String × String)) : '@' ∉ joinPairs ps := by
  induction ps with
  | nil => simp [joinPairs]
  | cons p qs ih =>
    cases qs with
    | nil =>
      unfold joinPairs
      simp only [List.mem_append, List.mem_cons]
      rintro (h | h | h)
      · exact formEncode_no_at _ h
      · exact absurd h (by decide)
      · exact formEncode_no_at _ h
    | cons q qs2 =>
      unfold joinPairs
      simp only [List.mem_append, List.mem_cons]
      rintro (h | h | h | h | h)
      · exact formEncode_no_at _ h
      · exact absurd h (by decide)
      · exact formEncode_no_at _ h
      · exact absurd h (by decide)
      · exact ih h

theorem camsRequestUrl_no_at (latS lonS : String) (p : FetchCamsSeriesParams) :
    '@' ∉ (camsRequestUrl latS lonS p).data := by
  show '@' ∉ SODA_WPS_BASE_URL.data ++ '?' :: joinPairs _
  simp only [List.mem_append, List.mem_cons]
  rintro (h | h | h)
  · exact absurd h (by decide)
  · exact absurd h (by decide)
  · exact joinPairs_no_at _ h

/-- C9: in every response any adapter builds, `metadata.requestUrl` is
exactly the URL handed to the transport call for that fetch; the serialized
CAMS URL never contains a `@` character, so an account email (which
contains `@`) never appears as a substring of the recorded
`requestUrl`. -/
theorem C9_requestUrl_exact_email_absent :
    (∀ lat lon latS lonS sy ey rows inputs url resp,
      fetchPvgisSeries lat lon latS lonS sy ey rows inputs = .ok (url, resp) →
      resp.metadata.requestUrl = some url)
    ∧ (∀ lat lon latS lonS rows inputs url resp,
      fetchPvgisTmy lat lon latS lonS rows inputs = .ok (url, resp) →
      resp.metadata.requestUrl = some url)
    ∧ (∀ lat lon latS lonS p csv url resp,
      fetchCamsSeries lat lon latS lonS p csv = .ok (url, resp) →
      resp.metadata.requestUrl = some url)
    ∧ (∀ latS lonS (p : FetchCamsSeriesParams), '@' ∈ (jsTrim p.email).data →
      ¬ List.IsInfix (jsTrim p.email).data (camsRequestUrl latS lonS p).data) := by
  refine ⟨?_, ?_, ?_, ?_⟩
  · intro lat lon latS lonS sy ey rows inputs url resp h
    unfold fetchPvgisSeries at h
    split at h
    · exact Except.noConfusion h
    · injection h with h
      injection h with h1 h2
      subst h1
      subst h2
      rfl
  · intro lat lon latS lonS rows inputs url resp h
    unfold fetchPvgisTmy at h
    split at h
    · exact Except.noConfusion h
    · injection h with h
      injection h with h1 h2
      subst h1
      subst h2
      rfl
  · intro lat lon latS lonS p csv url resp h
    unfold fetchCamsSeries at h
    split at h
    · exact Except.noConfusion h
    · split at h
      · exact Except.noConfusion h
      · split at h
        · exact Except.noConfusion h
        · injection h with h
          injection h with h1 h2
          subst h1
          subst h2
          rfl
  · intro latS lonS p hat hinf
    exact camsRequestUrl_no_at latS lonS p (hinf.subset hat)

/-! ## C10: the email credential is omitted from rawInputs -/

/-- C10: for every successful CAMS fetch, the `params` object embedded in
`metadata.rawInputs` has its `email` field set to `undefined` while every
other parameter is copied verbatim, so the credential never appears there
regardless of the input email value. -/
theorem C10_cams_email_omitted (lat lon : ℚ) (latS lonS : String)
    (p : FetchCamsSeriesParams) (csv url : String) (resp : IrradianceResponse)
    (h : fetchCamsSeries lat lon latS lonS p csv = .ok (url, resp)) :
    resp.metadata.rawInputs = some (RawInputs.camsInputs
      { start := p.start, endDate := p.endDate, email := none,
        identifier := p.identifier, timeStep := p.timeStep,
        integrated := p.integrated } (camsScan (camsLines csv)).1) := by
  unfold fetchCamsSeries at h
  split at h
  · exact Except.noConfusion h
  · split at h
    · exact Except.noConfusion h
    · next rm hparse =>
      split at h
      · exact Except.noConfusion h
      · injection h with h
        injection h with h1 h2
        subst h2
        show some (RawInputs.camsInputs _ rm.2) = _
        have hm : rm.2 = (camsScan (camsLines csv)).1 := by
          unfold parseCamsCsv at hparse
          split at hparse
          · exact Except.noConfusion hparse
          · injection hparse with hp
            rw [← hp]
        rw [hm]

/-! ## Concrete adapter runs for the witnesses -/

/-- Concrete CAMS parameters (flux mode). -/
def camsParamsEx : FetchCamsSeriesParams :=
  { start := "2025-01-01", endDate := "2025-01-02", email := "user@example.com" }

/-- Concrete CAMS parameters (energy-integrated mode). -/
def camsParamsExInt : FetchCamsSeriesParams :=
  { start := "2025-01-01", endDate := "2025-01-02", email := "user@example.com",
    integrated := some true }

/-- Concrete CAMS CSV payload: header marker plus one data row. -/
def camsCsvEx : String :=
  "# Observation period;GHI\n2025-01-01T00:00:00Z/2025-01-01T01:00:00Z;5"

/-- The response the CAMS builder produces for `camsParamsEx`. -/
def camsRespEx : IrradianceResponse :=
  { metadata := {
      source := "cams", queryType := "series", lat := 30, lon := 120,
      timeRef := "UTC", unit := { irradiance := some "W/m2" },
      provider := some "soda",
      requestUrl := some (camsRequestUrl "30" "120" camsParamsEx),
      rawInputs := some (.camsInputs
        { start := "2025-01-01", endDate := "2025-01-02", email := none,
          identifier := none, timeStep := none, integrated := none } []) },
    data := [{ time := "2025-01-01T00:00:00.000Z", ghi := some ((5 : ℕ) : ℚ),
               dni := none, dhi := none, extras := [] }] }

/-- The response the CAMS builder produces for `camsParamsExInt`. -/
def camsRespExInt : IrradianceResponse :=
  { metadata := {
      source := "cams", queryType := "series", lat := 30, lon := 120,
      timeRef := "UTC", unit := { irradiation := some "Wh/m2" },
      provider := some "soda",
      requestUrl := some (camsRequestUrl "30" "120" camsParamsExInt),
      rawInputs := some (.camsInputs
        { start := "2025-01-01", endDate := "2025-01-02", email := none,
          identifier := none, timeStep := none, integrated := some true } []) },
    data := [{ time := "2025-01-01T00:00:00.000Z", ghi := some ((5 : ℕ) : ℚ),
               dni := none, dhi := none, extras := [] }] }

/-- The response the PVGIS series builder produces for an empty row set. -/
def pvgisSeriesRespEx : IrradianceResponse :=
  { metadata := {
      source := "pvgis", queryType := "series", lat := 30, lon := 120,
      timeRef := "UTC", unit := { irradiance := some "W/m2" },
      requestUrl := some (pvgisSeriesUrl "30" "120" 2020 2020),
      rawInputs := some (.pvgisInputs .null) },
    data := [] }

/-- Witness for C7: the unit theorem applied to concrete runs of the
adapters (flux and integrated CAMS modes, PVGIS series). -/
theorem C7_unit_exclusive_witness :
    exclusiveUnit camsRespEx.metadata.unit = true
    ∧ camsRespExInt.metadata.unit = { irradiation := some "Wh/m2" }
    ∧ camsRespEx.metadata.unit = { irradiance := some "W/m2" }
    ∧ exclusiveUnit pvgisSeriesRespEx.metadata.unit = true := by
  have h1 := C7_unit_exclusive.2.2 30 120 "30" "120" camsParamsEx camsCsvEx
    (camsRequestUrl "30" "120" camsParamsEx) camsRespEx (by rfl)
  have h2 := C7_unit_exclusive.2.2 30 120 "30" "120" camsParamsExInt camsCsvEx
    (camsRequestUrl "30" "120" camsParamsExInt) camsRespExInt (by rfl)
  have h3 := C7_unit_exclusive.1 30 120 "30" "120" 2020 2020 [] .null
    (pvgisSeriesUrl "30" "120" 2020 2020) pvgisSeriesRespEx (by rfl)
  exact ⟨h1.1, h2.2.1 rfl, h1.2.2 (Or.inr rfl), h3.2⟩

/-- Witness for C9: the provenance theorem applied to concrete runs, plus
the concrete email never being a substring of the concrete request URL. -/
theorem C9_requestUrl_exact_email_absent_witness :
    camsRespEx.metadata.requestUrl = some (camsRequestUrl "30" "120" camsParamsEx)
    ∧ pvgisSeriesRespEx.metadata.requestUrl = some (pvgisSeriesUrl "30" "120" 2020 2020)
    ∧ ¬ List.IsInfix (jsTrim camsParamsEx.email).data
        (camsRequestUrl "30" "120" camsParamsEx).data := by
  refine ⟨C9_requestUrl_exact_email_absent.2.2.1 30 120 "30" "120" camsParamsEx camsCsvEx
      (camsRequestUrl "30" "120" camsParamsEx) camsRespEx (by rfl),
    C9_requestUrl_exact_email_absent.1 30 120 "30" "120" 2020 2020 [] .null
      (pvgisSeriesUrl "30" "120" 2020 2020) pvgisSeriesRespEx (by rfl),
    C9_requestUrl_exact_email_absent.2.2.2 "30" "120" camsParamsEx (by decide)⟩

/-- Witness for C10: the rawInputs theorem applied to a concrete run. -/
theorem C10_cams_email_omitted_witness :
    camsRespEx.metadata.rawInputs = some (RawInputs.camsInputs
      { start := "2025-01-01", endDate := "2025-01-02", email := none,
        identifier := none, timeStep := none, integrated := none }
      (camsScan (camsLines camsCsvEx)).1) :=
  C10_cams_email_omitted 30 120 "30" "120" camsParamsEx camsCsvEx
    (camsRequestUrl "30" "120" camsParamsEx) camsRespEx (by rfl)

/-! ## Monthly aggregation (src/app/page.tsx, `monthlySeries`)

The display timezone is either UTC or China standard time; the latter is
modelled as the fixed +08:00 offset (the `Intl` lookup for Asia/Shanghai
agrees with this for every instant the providers serve). -/

/-- The caller-chosen display timezone. -/
inductive TimeMode where
  | cn
  | utc
deriving DecidableEq

/-- Wall-clock calendar fields. -/
structure DateParts where
  y : Int
  m : Int
  d : Int
  hh : Int
  mi : Int
  ss : Int
deriving DecidableEq

/-- Calendar fields of an epoch-millisecond instant. -/
def partsOfMs (ms : Int) : DateParts :=
  let ymd := civilFromDays (ms / 86400000)
  let rem := (ms % 86400000).toNat
  { y := ymd.1, m := ymd.2.1, d := ymd.2.2,
    hh := rem / 3600000, mi := rem / 60000 % 60, ss := rem / 1000 % 60 }

/-- `getUtcParts` (src/app/page.tsx). -/
def getUtcParts (t : String) : Option DateParts :=
  (jsParseDate t).map partsOfMs

/-- `getChinaParts` (src/app/page.tsx): the +08:00 wall clock. -/
def getChinaParts (t : String) : Option DateParts :=
  (jsParseDate t).map (fun ms => partsOfMs (ms + 28800000))

/-- The parts in the chosen time mode. -/
def getParts (tm : TimeMode) (t : String) : Option DateParts :=
  match tm with
  | .utc => getUtcParts t
  | .cn => getChinaParts t

/-- The reported field family: `"ghi"`, `"extras:Gb(i)+Gd(i)+Gr(i)"` or
`"extras:Int"`. -/
inductive UsedKey where
  | ghi
  | components
  | intKey
deriving DecidableEq

/-- `typeof r.extras?.[k] === "number"` access. -/
def extraNum (r : IrradiancePoint) (k : String) : Option ℚ :=
  match List.lookup k r.extras with
  | some (.num q) => some q
  | _ => none

/-- First-set-wins choice (`a ?? b`). -/
def orD {α : Type} : Option α → Option α → Option α
  | some x, _ => some x
  | none, b => b

/-- The running state of the `monthlySeries` loop: the twelve month sums
(indexed by `month - 1`) and the reported key. -/
structure MonthlyAcc where
  sums : Int → ℚ
  usedKey : Option UsedKey

/-- `sums[m] += v`. -/
def addAt (f : Int → ℚ) (m : Int) (v : ℚ) : Int → ℚ :=
  fun i => if i = m then f i + v else f i

/-- The loop body's value selection (`let v = r.ghi; if (v == null) ...`):
`ghi` when present, otherwise the component-triple sum when any component
is present, otherwise the generic `Int` fallback. -/
def selectValue (r : IrradiancePoint) : Option ℚ :=
  match r.ghi with
  | some v => some v
  | none =>
    if (extraNum r "Gb(i)").isSome ∨ (extraNum r "Gd(i)").isSome
        ∨ (extraNum r "Gr(i)").isSome then
      some ((extraNum r "Gb(i)").getD 0 + (extraNum r "Gd(i)").getD 0
        + (extraNum r "Gr(i)").getD 0)
    else extraNum r "Int"

/-- The field family one point offers, in the loop body's priority order. -/
def familyOf (r : IrradiancePoint) : Option UsedKey :=
  match r.ghi with
  | some _ => some .ghi
  | none =>
    if (extraNum r "Gb(i)").isSome ∨ (extraNum r "Gd(i)").isSome
        ∨ (extraNum r "Gr(i)").isSome then some .components
    else if (extraNum r "Int").isSome then some .intKey
    else none

/-- One iteration of the `monthlySeries` loop: skip unparsable times;
compute `v` by the source's if-chain (`selectValue`); add it, when
present, to the point's wall-clock month bucket; update the reported key —
a `ghi` point overwrites it, the extras families only fill an empty slot
(`usedKey = usedKey ?? ...`). -/
def monthlyStep (tm : TimeMode) (acc : MonthlyAcc) (r : IrradiancePoint) : MonthlyAcc :=
  match getParts tm r.time with
  | none => acc
  | some parts =>
    { sums :=
        match selectValue r with
        | some v => addAt acc.sums (parts.m - 1) v
        | none => acc.sums
      usedKey := if r.ghi.isSome then some .ghi else orD acc.usedKey (familyOf r) }

/-- The result of `monthlySeries`: `(month, kwh_m2)` pairs and the
reported key. -/
structure MonthlyResult where
  out : List (Nat × ℚ)
  usedKey : Option UsedKey
deriving DecidableEq

/-- Embedding of `monthlySeries` (src/app/page.tsx): fold the points, then
emit the twelve `sums[idx] / 1000` entries. -/
def monthlySeries (tm : TimeMode) (data : List IrradiancePoint) : MonthlyResult :=
  let acc := data.foldl (monthlyStep tm) { sums := fun _ => 0, usedKey := none }
  { out := (List.range 12).map (fun k => (k + 1, acc.sums (k : Int) / 1000)),
    usedKey := acc.usedKey }

/-- A point lands in wall-clock month `mo` of the chosen timezone. -/
def inMonth (tm : TimeMode) (mo : Int) (r : IrradiancePoint) : Bool :=
  match getParts tm r.time with
  | some parts => parts.m == mo
  | none => false

/-- Spec-side monthly total: the sum of the selected values over the
points bucketed into month `mo`. -/
def monthSumSpec (tm : TimeMode) (data : List IrradiancePoint) (mo : Int) : ℚ :=
  ((data.filter (inMonth tm mo)).map (fun r => (selectValue r).getD 0)).sum

/-- Spec-side family list of the parseable points, in order. -/
def famList (tm : TimeMode) (data : List IrradiancePoint) : List UsedKey :=
  data.filterMap (fun r => if (getParts tm r.time).isSome then familyOf r else none)

/-- Spec-side reported key: `ghi` when any parseable point carries `ghi`,
otherwise the family of the first parseable point that carries one. -/
def usedKeySpec (tm : TimeMode) (data : List IrradiancePoint) : Option UsedKey :=
  if data.any (fun r => (getParts tm r.time).isSome && r.ghi.isSome) then some .ghi
  else (famList tm data).head?

theorem orD_none {α : Type} (a : Option α) : orD a none = a := by
  cases a <;> rfl

theorem orD_assoc {α : Type} (a b c : Option α) :
    orD (orD a b) c = orD a (orD b c) := by
  cases a <;> rfl

theorem addAt_eq (f : Int → ℚ) (mo i : Int) (v : ℚ) :
    addAt f (mo - 1) v i = f i + (if (mo == i + 1) then v else 0) := by
  unfold addAt
  by_cases h : mo = i + 1
  · rw [if_pos (by omega : i = mo - 1), if_pos (by simp [h] : (mo == i + 1) = true)]
  · rw [if_neg (by omega : ¬ i = mo - 1),
      if_neg (by simp [h] : ¬ ((mo == i + 1) = true)), add_zero]

theorem monthlyStep_sums (tm : TimeMode) (acc : MonthlyAcc) (r : IrradiancePoint)
    (i : Int) :
    (monthlyStep tm acc r).sums i =
      acc.sums i + (if inMonth tm (i + 1) r then (selectValue r).getD 0 else 0) := by
  unfold monthlyStep inMonth
  cases hp : getParts tm r.time with
  | none => simp
  | some parts =>
    cases hs : selectValue r with
    | some v =>
      show addAt acc.sums (parts.m - 1) v i = _
      rw [addAt_eq]
      rfl
    | none =>
      show acc.sums i = _
      by_cases hb : ((parts.m == i + 1) = true) <;> simp [hb]

theorem monthSumSpec_cons (tm : TimeMode) (r : IrradiancePoint)
    (rest : List IrradiancePoint) (mo : Int) :
    monthSumSpec tm (r :: rest) mo =
      (if inMonth tm mo r then (selectValue r).getD 0 else 0)
        + monthSumSpec tm rest mo := by
  unfold monthSumSpec
  rw [List.filter_cons]
  by_cases hm : inMonth tm mo r
  · rw [if_pos hm, if_pos hm]
    simp
  · rw [if_neg hm, if_neg hm]
    simp

theorem foldl_monthlyStep_sums (tm : TimeMode) :
    ∀ (data : List IrradiancePoint) (acc : MonthlyAcc) (i : Int),
    ((data.foldl (monthlyStep tm) acc).sums i)
      = acc.sums i + monthSumSpec tm data (i + 1) := by
  intro data
  induction data with
  | nil => intro acc i; simp [monthSumSpec]
  | cons r rest ih =>
    intro acc i
    rw [List.foldl_cons, ih, monthlyStep_sums, monthSumSpec_cons]
    ring

theorem monthlyStep_usedKey (tm : TimeMode) (acc : MonthlyAcc) (r : IrradiancePoint) :
    (monthlyStep tm acc r).usedKey =
      if (getParts tm r.time).isSome && r.ghi.isSome then some .ghi
      else orD acc.usedKey (if (getParts tm r.time).isSome then familyOf r else none) := by
  unfold monthlyStep
  cases hp : getParts tm r.time with
  | none => simp [orD_none]
  | some parts =>
    show (if r.ghi.isSome then some UsedKey.ghi else orD acc.usedKey (familyOf r)) = _
    by_cases hg : r.ghi.isSome = true
    · rw [if_pos hg,
        if_pos (by simp [hg] : (((some parts).isSome && r.ghi.isSome) = true))]
    · rw [if_neg hg,
        if_neg (by simp [hg] : ¬ (((some parts).isSome && r.ghi.isSome) = true))]
      rfl

theorem head?_filterMap_consCase {α : Type} (g : Option α) (L : List α) :
    (match g with
     | some b => b :: L
     | none => L).head? = orD g L.head? := by
  cases g <;> rfl

theorem foldl_monthlyStep_usedKey (tm : TimeMode) :
    ∀ (data : List IrradiancePoint) (acc : MonthlyAcc),
    ((data.foldl (monthlyStep tm) acc).usedKey)
      = if data.any (fun r => (getParts tm r.time).isSome && r.ghi.isSome)
          then some .ghi
        else orD acc.usedKey (famList tm data).head? := by
  intro data
  induction data with
  | nil =>
    intro acc
    simp [famList, orD_none]
  | cons r rest ih =>
    intro acc
    rw [List.foldl_cons, ih, monthlyStep_usedKey]
    rw [List.any_cons]
    unfold famList
    rw [List.filterMap_cons]
    by_cases hA : ((getParts tm r.time).isSome && r.ghi.isSome) = true
    · rw [hA]
      simp only [Bool.true_or, if_true]
      by_cases hR : rest.any (fun r => (getParts tm r.time).isSome && r.ghi.isSome)
      · rw [if_pos hR]
      · rw [if_neg hR]
        rfl
    · rw [Bool.of_not_eq_true hA]
      simp only [Bool.false_or]
      by_cases hR : rest.any (fun r => (getParts tm r.time).isSome && r.ghi.isSome)
      · rw [if_pos hR, if_pos hR]
      · rw [if_neg hR, if_neg hR]
        simp only [Bool.false_eq_true, if_false]
        cases hg2 : (if (getParts tm r.time).isSome = true then familyOf r else none) with
        | none =>
          rw [orD_none]
        | some f =>
          rw [orD_assoc]
          rfl

/-- C8: for every canonical response and chosen timezone (UTC or the fixed
+08:00 offset), `monthlySeries` returns, for each of the twelve months
bucketed by that timezone's wall-clock month, the sum over the points in
that month of the per-point selected value — `ghi` when present, otherwise
the `Gb(i)`/`Gd(i)`/`Gr(i)` component sum when any is present, otherwise
the generic `Int` fallback — divided by 1000; and it reports the field
family used: `ghi` when any parseable point carries `ghi`, otherwise the
family of the first parseable point carrying one. -/
theorem C8_monthly_index (tm : TimeMode) (data : List IrradiancePoint) :
    (monthlySeries tm data).out =
      (List.range 12).map (fun (k : Nat) =>
        ((k + 1 : Nat), monthSumSpec tm data ((k : Int) + 1) / 1000))
    ∧ (monthlySeries tm data).usedKey = usedKeySpec tm data := by
  constructor
  · unfold monthlySeries
    simp only []
    apply List.map_congr_left
    intro k _
    have h := foldl_monthlyStep_sums tm data
      { sums := fun _ => 0, usedKey := none } (k : Int)
    rw [h]
    rw [zero_add]
  · unfold monthlySeries usedKeySpec
    simp only []
    rw [foldl_monthlyStep_usedKey]
    by_cases hA : data.any (fun r => (getParts tm r.time).isSome && r.ghi.isSome)
    · rw [if_pos hA, if_pos hA]
    · rw [if_neg hA, if_neg hA]
      rfl

end PVgis
